import Mathlib

/-!
# Conversation context manager: a shallow embedding

A Lean model of the repository's `ContextManager` class (conversation state
for the conference voice assistant) and theorems about its behaviour.

Conventions of the embedding:
* JS `Map` and plain objects with string keys become association lists
  (`List (String × β)`) with `alookup` / `aset` mirroring `Map.get` /
  `Map.set` (overwrite in place, append when absent).
* JS `Set` (insertion-ordered, duplicate-free) becomes a `List String`
  carrying insertion order; `jsSetAdd` mirrors `Set.add`.
* Timestamps (`new Date()`) become an explicit `now : Int` argument in
  milliseconds; `Date` subtraction becomes `Int` subtraction.
* JS string truthiness (`undefined`/`null`/`""` falsy) is `truthy` on
  `Option String`.
* Case folding models `toLowerCase` on the ASCII data the manager handles.
-/

namespace ConfVoice

/-- Does the first list start with the second? -/
def prefixOfCL : List Char → List Char → Bool
  | _, [] => true
  | [], _ :: _ => false
  | c :: cs, p :: ps => c = p && prefixOfCL cs ps

/-- Does the pattern occur as a contiguous run somewhere in the list? -/
def infixOfCL : List Char → List Char → Bool
  | s, pat => prefixOfCL s pat ||
      match s with
      | [] => false
      | _ :: cs => infixOfCL cs pat

/-- JS `String.prototype.includes`: substring containment. -/
def strContains (s pat : String) : Bool := infixOfCL s.toList pat.toList

/-- ASCII case folding, modelling `String.prototype.toLowerCase` on the
ASCII strings this module manipulates. -/
def lowerStr (s : String) : String := ⟨s.toList.map Char.toLower⟩

/-- `String.prototype.startsWith`. -/
def strStartsWith (s pre : String) : Bool := prefixOfCL s.toList pre.toList

/-- JS truthiness of an optional string: `undefined`, `null` and `""` are
falsy; any other string is truthy. -/
def truthy : Option String → Option String
  | some s => if s = "" then none else some s
  | none => none

/-- JS truthiness of an optional number: `null` and the number `0` are
falsy (`NaN` cannot arise here); any other number is truthy. -/
def truthyInt : Option Int → Option Int
  | some i => if i = 0 then none else some i
  | none => none

/-- Association-list lookup: JS `Map.get` / property access (string keys
are unique in a `Map` or object literal). -/
def alookup {β : Type} : List (String × β) → String → Option β
  | [], _ => none
  | kv :: t, k => if kv.1 = k then some kv.2 else alookup t k

/-- Association-list update: JS `Map.set` / object spread overwrite — the
value at an existing key is replaced in place, a new key is appended. -/
def aset {β : Type} : List (String × β) → String → β → List (String × β)
  | [], k, v => [(k, v)]
  | kv :: t, k, v => if kv.1 = k then (k, v) :: t else kv :: aset t k v

/-- A parameter bag: a JS object whose relevant values are strings; a `none`
value models a key explicitly set to `undefined`. -/
abbrev Params := List (String × Option String)

/-- `parameters.k` as an optional string (`undefined` when absent). -/
def getParam (p : Params) (k : String) : Option String :=
  match alookup p k with
  | some v => v
  | none => none

/-- `parameters.k || ''`. -/
def getParamOrEmpty (p : Params) (k : String) : String :=
  (truthy (getParam p k)).getD ""

structure Speaker where
  name : String
deriving Repr, DecidableEq

/-- A result row: a session record optionally carrying a `title` and a
`speaker.name`. -/
structure SessionItem where
  title : Option String
  speaker : Option Speaker
deriving Repr, DecidableEq

/-- A function result object: `success`, `data` (`none` when absent or not
an array), `count` (`none` when absent). -/
structure FnResult where
  success : Bool
  data : Option (List SessionItem)
  count : Option Nat
deriving Repr, DecidableEq

/-- One `conversationHistory` entry, as built by `updateContext`. -/
structure Entry where
  timestamp : Int
  functionName : String
  parameters : Params
  resultCount : Nat
  userQuery : Option String
  success : Bool
deriving Repr, DecidableEq

/-- The `lastQuery` record stored by `updateContext`. -/
structure LastQuery where
  functionName : String
  parameters : Params
  results : List SessionItem
  timestamp : Int
deriving Repr, DecidableEq

/-- One conversation context, per `createNewContext` (the unused
`userPreferences : {}` field is omitted: nothing ever reads or writes it). -/
structure Context where
  sessionId : String
  createdAt : Int
  lastActivity : Int
  conversationHistory : List Entry
  lastQuery : Option LastQuery
  lastResults : List SessionItem
  currentTopic : Option String
  mentionedSpeakers : List String
  mentionedSessions : List String
  recentSearchTerms : List String
deriving Repr, DecidableEq

/-- `this.contexts`: the `Map` of tracked contexts. -/
abbrev Store := List (String × Context)

/-- `CONTEXT_TIMEOUT = 10 * 60 * 1000` (10 minutes, in ms). -/
def CONTEXT_TIMEOUT : Int := 10 * 60 * 1000

/-- `createNewContext(sessionId)`. -/
def createNewContext (sessionId : String) (now : Int) : Context :=
  { sessionId := sessionId
    createdAt := now
    lastActivity := now
    conversationHistory := []
    lastQuery := none
    lastResults := []
    currentTopic := none
    mentionedSpeakers := []
    mentionedSessions := []
    recentSearchTerms := [] }

/-- `getContext(sessionId)`: create the context lazily when absent, then
refresh `lastActivity` (the refresh mutates the stored object, hence the
store is written back). Returns the updated store and the context. -/
def getContext (m : Store) (now : Int) (sessionId : String) : Store × Context :=
  let c0 := (alookup m sessionId).getD (createNewContext sessionId now)
  let c := { c0 with lastActivity := now }
  (aset m sessionId c, c)

/-- JS `Set.add`: append unless already a member (membership does not move
an existing element). -/
def jsSetAdd (s : List String) (x : String) : List String :=
  if x ∈ s then s else s ++ [x]

/-- `Array.prototype.slice(-n)`: the last `n` elements (all of them when the
list is shorter). -/
def lastN {α : Type} (n : Nat) (l : List α) : List α := l.drop (l.length - n)

/-- `limitSetSize(set, maxSize)`: when over the cap, keep only the last
`maxSize` elements in insertion order. -/
def limitSetSize (s : List String) (maxSize : Nat) : List String :=
  if maxSize < s.length then lastN maxSize s else s

/-- The `results.data.forEach(item => ...)` body of `extractEntities`:
remember `item.speaker.name` and `item.title` when truthy. -/
def rememberResultEntities (context : Context) (item : SessionItem) : Context :=
  let context :=
    match item.speaker with
    | some sp =>
        match truthy (some sp.name) with
        | some n =>
            { context with mentionedSpeakers := jsSetAdd context.mentionedSpeakers (lowerStr n) }
        | none => context
    | none => context
  match truthy item.title with
  | some t => { context with mentionedSessions := jsSetAdd context.mentionedSessions (lowerStr t) }
  | none => context

/-- `extractEntities`, first paragraph: remember a truthy `speaker_name`
parameter. -/
def rememberSpeakerParam (context : Context) (parameters : Params) : Context :=
  match truthy (getParam parameters "speaker_name") with
  | some v =>
      { context with
        mentionedSpeakers := jsSetAdd context.mentionedSpeakers (lowerStr v)
        recentSearchTerms := jsSetAdd context.recentSearchTerms (lowerStr v) }
  | none => context

/-- `extractEntities`, second paragraph: remember a truthy `topic`
parameter. -/
def rememberTopicParam (context : Context) (parameters : Params) : Context :=
  match truthy (getParam parameters "topic") with
  | some v => { context with recentSearchTerms := jsSetAdd context.recentSearchTerms (lowerStr v) }
  | none => context

/-- `extractEntities`, third paragraph: remember a truthy `query`
parameter. -/
def rememberQueryParam (context : Context) (parameters : Params) : Context :=
  match truthy (getParam parameters "query") with
  | some v => { context with recentSearchTerms := jsSetAdd context.recentSearchTerms (lowerStr v) }
  | none => context

/-- `extractEntities`, fourth paragraph: walk the result rows. -/
def rememberResults (context : Context) (results : FnResult) : Context :=
  match results.data with
  | some items => items.foldl rememberResultEntities context
  | none => context

/-- `extractEntities(context, parameters, results)`: the four remembering
paragraphs in source order, then the three `limitSetSize` caps. -/
def extractEntities (context : Context) (parameters : Params) (results : FnResult) : Context :=
  let context := rememberSpeakerParam context parameters
  let context := rememberTopicParam context parameters
  let context := rememberQueryParam context parameters
  let context := rememberResults context results
  { context with
    mentionedSpeakers := limitSetSize context.mentionedSpeakers 20
    mentionedSessions := limitSetSize context.mentionedSessions 15
    recentSearchTerms := limitSetSize context.recentSearchTerms 10 }

/-- `updateCurrentTopic(context, functionName, parameters)`. -/
def updateCurrentTopic (context : Context) (functionName : String) (parameters : Params) : Context :=
  if functionName = "search_sessions_by_topic" then
    match truthy (getParam parameters "topic") with
    | some topic => { context with currentTopic := some (lowerStr topic) }
    | none => context
  else if functionName = "search_sessions_by_speaker" then
    match truthy (getParam parameters "speaker_name") with
    | some n => { context with currentTopic := some ("speaker: " ++ lowerStr n) }
    | none => context
  else if functionName = "search_sessions_by_type" then
    match truthy (getParam parameters "session_type") with
    | some ty => { context with currentTopic := some ("type: " ++ lowerStr ty) }
    | none => context
  else if functionName = "get_current_sessions" then
    { context with currentTopic := some "current sessions" }
  else if functionName = "get_upcoming_sessions" then
    { context with currentTopic := some "upcoming sessions" }
  else context

/-- The `updateContext` entry built from one interaction
(`results.count || 0`). -/
def mkEntry (now : Int) (functionName : String) (parameters : Params) (results : FnResult)
    (userQuery : Option String) : Entry :=
  { timestamp := now
    functionName := functionName
    parameters := parameters
    resultCount := results.count.getD 0
    userQuery := userQuery
    success := results.success }

/-- The body of `updateContext` after `getContext`: push the history entry
(trimmed to the last 10), replace `lastQuery` and `lastResults`
(`results.data || []`), extract entities, update the current topic. -/
def applyCall (context : Context) (now : Int) (functionName : String) (parameters : Params)
    (results : FnResult) (userQuery : Option String) : Context :=
  let history := context.conversationHistory ++ [mkEntry now functionName parameters results userQuery]
  let history := if 10 < history.length then lastN 10 history else history
  let context :=
    { context with
      conversationHistory := history
      lastQuery := some { functionName := functionName, parameters := parameters,
                          results := results.data.getD [], timestamp := now }
      lastResults := results.data.getD [] }
  let context := extractEntities context parameters results
  updateCurrentTopic context functionName parameters

/-- `updateContext(sessionId, functionName, parameters, results, userQuery)`:
the mutated context is the one stored in the map. -/
def updateContext (m : Store) (now : Int) (sessionId functionName : String) (parameters : Params)
    (results : FnResult) (userQuery : Option String) : Store × Context :=
  let (m1, context) := getContext m now sessionId
  let context := applyCall context now functionName parameters results userQuery
  (aset m1 sessionId context, context)

/-- The `ordinals` table of `extractOrdinalReference`, in the iteration
order `Object.entries` yields for the object literal (its insertion
order). -/
def ordinals : List (String × Int) :=
  [("first", 0), ("second", 1), ("third", 2), ("fourth", 3), ("fifth", 4),
   ("last", -1), ("latest", -1), ("newest", -1),
   ("1st", 0), ("2nd", 1), ("3rd", 2), ("4th", 3), ("5th", 4)]

/-- `extractOrdinalReference(text)`: the first table entry whose key is a
(case-insensitive) substring of the text. -/
def extractOrdinalReference (text : String) : Option Int :=
  let lowerText := lowerStr text
  (ordinals.find? fun kv => strContains lowerText kv.1).map Prod.snd

/-- `getSessionByOrdinal(results, ordinalIndex)`. -/
def getSessionByOrdinal (results : List SessionItem) (ordinalIndex : Int) : Option SessionItem :=
  if results.length = 0 then none
  else if ordinalIndex = -1 then results.getLast?
  else if 0 ≤ ordinalIndex ∧ ordinalIndex < (results.length : Int) then
    results.get? ordinalIndex.toNat
  else none

/-- `targetSession.title || targetSession.speaker?.name`. -/
def titleOrSpeakerName (s : SessionItem) : Option String :=
  match truthy s.title with
  | some t => some t
  | none => s.speaker.map Speaker.name

/-- `resolveFollowUpQueries(context, functionName, parameters)` (Pass A).
The source guards the ordinal branch with `if (ordinalMatch)` — a JS
truthiness test on a number-or-null, under which the ordinal index `0`
("first"/"1st") is falsy and silently skips the replacement — modelled by
`truthyInt`. -/
def resolveFollowUpQueries (context : Context) (functionName : String) (parameters : Params) :
    Params :=
  if context.lastResults.length = 0 then parameters
  else if functionName = "get_session_details" then
    match (truthyInt (extractOrdinalReference (getParamOrEmpty parameters "session_query"))).bind
        (getSessionByOrdinal context.lastResults) with
    | some targetSession => aset parameters "session_query" (titleOrSpeakerName targetSession)
    | none => parameters
  else if functionName = "search_sessions_by_speaker" ∧
      truthy (getParam parameters "speaker_name") = none then
    match context.lastResults.find? (fun item => (truthy (item.speaker.map Speaker.name)).isSome) with
    | some firstSpeaker => aset parameters "speaker_name" (firstSpeaker.speaker.map Speaker.name)
    | none => parameters
  else parameters

/-- Case-insensitive match of a lowercase pattern at the head of a string;
returns the remainder after the match. -/
def matchPatCI : List Char → List Char → Option (List Char)
  | [], s => some s
  | _ :: _, [] => none
  | p :: ps, c :: cs => if c.toLower = p then matchPatCI ps cs else none

/-- Fuel-driven scanner for `text.replace(/pat1|pat2/gi, repl)`: at each
position replace whichever of the two phrases matches (they can never both
match at one position), else keep the character. The fuel (the input
length) is enough for the non-empty patterns used here. `$`-escapes in the
replacement string are not modelled (no caller uses them). -/
def replaceAllCIAux (pat1 pat2 repl : List Char) : Nat → List Char → List Char
  | 0, s => s
  | _ + 1, [] => []
  | fuel + 1, c :: cs =>
    match matchPatCI pat1 (c :: cs) with
    | some rest => repl ++ replaceAllCIAux pat1 pat2 repl fuel rest
    | none =>
      match matchPatCI pat2 (c :: cs) with
      | some rest => repl ++ replaceAllCIAux pat1 pat2 repl fuel rest
      | none => c :: replaceAllCIAux pat1 pat2 repl fuel cs

/-- `text.replace(/pat1|pat2/gi, repl)` for the fixed lowercase phrase pairs
of `replaceContextualTerms`. -/
def replaceAllCI (pat1 pat2 repl text : String) : String :=
  ⟨replaceAllCIAux pat1.toList pat2.toList repl.toList text.toList.length text.toList⟩

/-- Case-sensitive match of a pattern at the head; the remainder on
success. -/
def matchPatCS : List Char → List Char → Option (List Char)
  | [], s => some s
  | _ :: _, [] => none
  | p :: ps, c :: cs => if c = p then matchPatCS ps cs else none

def replaceFirstAux (pat repl : List Char) : List Char → List Char
  | [] => []
  | c :: cs =>
    match matchPatCS pat (c :: cs) with
    | some rest => repl ++ rest
    | none => c :: replaceFirstAux pat repl cs

/-- `text.replace(pat, repl)` with a plain-string pattern: replace the first
occurrence only. -/
def replaceFirst (pat repl text : String) : String :=
  ⟨replaceFirstAux pat.toList repl.toList text.toList⟩

/-- `getRecentEntity(entitySet)`: `Array.from(set).pop()`, the
most-recently-inserted member. -/
def getRecentEntity (entitySet : List String) : Option String :=
  if entitySet.length = 0 then none else entitySet.getLast?

/-- `replaceContextualTerms(context, text)` (the per-string body of Pass B).
In the source each branch returns only when both the phrase is present and
the substitution source exists; otherwise control falls through to the next
branch. -/
def replaceContextualTerms (context : Context) (text : String) : String :=
  let lowerText := lowerStr text
  if (strContains lowerText "that speaker" || strContains lowerText "the speaker")
      && (getRecentEntity context.mentionedSpeakers).isSome then
    replaceAllCI "that speaker" "the speaker"
      ((getRecentEntity context.mentionedSpeakers).getD "") text
  else if (strContains lowerText "that session" || strContains lowerText "the session")
      && (getRecentEntity context.mentionedSessions).isSome then
    replaceAllCI "that session" "the session"
      ((getRecentEntity context.mentionedSessions).getD "") text
  else if (strContains lowerText "same topic" || strContains lowerText "that topic")
      && (match truthy context.currentTopic with
          | some t => !strStartsWith t "speaker:"
          | none => false) then
    replaceAllCI "same topic" "that topic"
      (replaceFirst "type: " "" ((truthy context.currentTopic).getD "")) text
  else text

/-- `resolveContextualReferences(context, parameters)` (Pass B): rewrite
every string-valued parameter. -/
def resolveContextualReferences (context : Context) (parameters : Params) : Params :=
  parameters.map fun kv =>
    match kv.2 with
    | some v => (kv.1, some (replaceContextualTerms context v))
    | none => kv

/-- `resolveRelativeReferences(context, parameters)` (Pass C): when a string
value mentions "similar"/"related"/"like this" (case-sensitive, as in the
source) and the key is `topic` and a topic is set, substitute the current
topic with its `speaker: ` / `type: ` prefixes stripped. -/
def resolveRelativeReferences (context : Context) (parameters : Params) : Params :=
  parameters.map fun kv =>
    match kv.2 with
    | some v =>
        if (strContains v "similar" || strContains v "related" || strContains v "like this")
            && (truthy context.currentTopic).isSome && kv.1 = "topic" then
          (kv.1, some (replaceFirst "type: " ""
            (replaceFirst "speaker: " "" ((truthy context.currentTopic).getD ""))))
        else kv
    | none => kv

/-- The three resolution passes in order, as composed by
`resolveContextualQuery` on the context it fetched. -/
def resolvePasses (context : Context) (functionName : String) (parameters : Params) : Params :=
  resolveRelativeReferences context
    (resolveContextualReferences context
      (resolveFollowUpQueries context functionName parameters))

/-- `resolveContextualQuery(sessionId, functionName, parameters)`: fetch
(or create) the context — which refreshes `lastActivity` in the store —
then run the three passes on a copy of the parameters. -/
def resolveContextualQuery (m : Store) (now : Int) (sessionId functionName : String)
    (parameters : Params) : Store × Params :=
  let (m1, context) := getContext m now sessionId
  (m1, resolvePasses context functionName parameters)

/-- `cleanupExpiredContexts()`: drop every context whose inactivity
(`now - lastActivity`) strictly exceeds `CONTEXT_TIMEOUT`. -/
def cleanupExpiredContexts (m : Store) (now : Int) : Store :=
  m.filter fun kv => decide (now - kv.2.lastActivity ≤ CONTEXT_TIMEOUT)

/-- One recorded interaction: the arguments of one `updateContext` call. -/
structure CallRec where
  now : Int
  functionName : String
  parameters : Params
  results : FnResult
  userQuery : Option String
deriving Repr, DecidableEq

/-- A sequence of `updateContext` calls on the same session. -/
def runInteractions (m : Store) (sessionId : String) (calls : List CallRec) : Store :=
  calls.foldl
    (fun m c => (updateContext m c.now sessionId c.functionName c.parameters c.results c.userQuery).1)
    m

/-- The history entry a recorded call produces. -/
def entryOf (c : CallRec) : Entry :=
  mkEntry c.now c.functionName c.parameters c.results c.userQuery

/-! ## Association-list lemmas -/

theorem alookup_aset_self {β : Type} (m : List (String × β)) (k : String) (v : β) :
    alookup (aset m k v) k = some v := by
  induction m with
  | nil => simp [aset, alookup]
  | cons kv t ih =>
      by_cases h : kv.1 = k
      · simp [aset, alookup, h]
      · simp [aset, alookup, h, ih]

theorem alookup_aset_ne {β : Type} (m : List (String × β)) (k k' : String) (v : β)
    (h : k' ≠ k) : alookup (aset m k v) k' = alookup m k' := by
  induction m with
  | nil => simp [aset, alookup, Ne.symm h]
  | cons kv t ih =>
      by_cases hk : kv.1 = k
      · subst hk; simp [aset, alookup, Ne.symm h]
      · simp only [aset, if_neg hk, alookup]
        by_cases hk' : kv.1 = k'
        · simp [hk']
        · simp [hk', ih]

theorem aset_aset {β : Type} (m : List (String × β)) (k : String) (a b : β) :
    aset (aset m k a) k b = aset m k b := by
  induction m with
  | nil => simp [aset]
  | cons kv t ih =>
      by_cases h : kv.1 = k
      · simp [aset, h]
      · simp [aset, h, ih]

theorem alookup_aset_cases {β : Type} (m : List (String × β)) (k : String) (v : β)
    (k' : String) (v' : β) (h : alookup (aset m k v) k' = some v') :
    v' = v ∨ alookup m k' = some v' := by
  induction m with
  | nil =>
      simp only [aset, alookup] at h
      by_cases hk : k = k'
      · rw [if_pos hk] at h
        exact Or.inl (Option.some.inj h).symm
      · rw [if_neg hk] at h
        exact absurd h (by simp)
  | cons kv t ih =>
      by_cases hk : kv.1 = k
      · simp only [aset, if_pos hk, alookup] at h
        by_cases hk' : k = k'
        · rw [if_pos hk'] at h
          exact Or.inl (Option.some.inj h).symm
        · rw [if_neg hk'] at h
          refine Or.inr ?_
          have hkv : ¬ kv.1 = k' := by rw [hk]; exact hk'
          simp only [alookup, if_neg hkv]
          exact h
      · simp only [aset, if_neg hk, alookup] at h
        by_cases hk' : kv.1 = k'
        · rw [if_pos hk'] at h
          refine Or.inr ?_
          simp only [alookup, if_pos hk']
          exact h
        · rw [if_neg hk'] at h
          rcases ih h with h1 | h2
          · exact Or.inl h1
          · refine Or.inr ?_
            simp only [alookup, if_neg hk']
            exact h2

/-! ## `lastN` (`slice(-n)`) lemmas -/

theorem lastN_of_le {α : Type} (n : Nat) (l : List α) (h : l.length ≤ n) :
    lastN n l = l := by
  unfold lastN
  rw [Nat.sub_eq_zero_of_le h, List.drop_zero]

theorem lastN_length {α : Type} (n : Nat) (l : List α) :
    (lastN n l).length = min n l.length := by
  unfold lastN
  rw [List.length_drop]
  omega

theorem lastN_suffix {α : Type} (n : Nat) (l : List α) : lastN n l <:+ l :=
  List.drop_suffix _ _

theorem lastN_append_lastN {α : Type} (n : Nat) (l e : List α) :
    lastN n (lastN n l ++ e) = lastN n (l ++ e) := by
  by_cases h : l.length ≤ n
  · rw [lastN_of_le _ _ h]
  · push_neg at h
    have hd : (lastN n l).length = n := by rw [lastN_length]; omega
    unfold lastN at hd ⊢
    rw [List.length_append, List.length_append, hd]
    have h1 : n + e.length - n = e.length := by omega
    have h2 : l.length + e.length - n = (l.length - n) + e.length := by omega
    rw [h1, h2]
    calc List.drop e.length (List.drop (l.length - n) l ++ e)
        = List.drop e.length (List.drop (l.length - n) (l ++ e)) := by
          conv_rhs => rw [List.drop_append_of_le_length
            (show l.length - n ≤ l.length by omega)]
      _ = List.drop ((l.length - n) + e.length) (l ++ e) := List.drop_drop _ _ _

/-- The trimming step of `updateContext` always equals `slice(-10)`. -/
theorem trim_eq_lastN (h : List Entry) :
    (if 10 < h.length then lastN 10 h else h) = lastN 10 h := by
  by_cases hh : 10 < h.length
  · rw [if_pos hh]
  · rw [if_neg hh, lastN_of_le _ _ (by omega)]

/-! ## Structure of the context transformers -/

theorem limitSetSize_length_le (s : List String) (cap : Nat) :
    (limitSetSize s cap).length ≤ cap := by
  unfold limitSetSize
  by_cases h : cap < s.length
  · rw [if_pos h, lastN_length]; omega
  · rw [if_neg h]; omega

theorem jsSetAdd_nodup (s : List String) (x : String) (h : s.Nodup) :
    (jsSetAdd s x).Nodup := by
  unfold jsSetAdd
  by_cases hx : x ∈ s
  · rwa [if_pos hx]
  · rw [if_neg hx]
    simp [List.nodup_append, h, List.disjoint_singleton, hx]

theorem limitSetSize_nodup (s : List String) (cap : Nat) (h : s.Nodup) :
    (limitSetSize s cap).Nodup := by
  unfold limitSetSize
  by_cases hc : cap < s.length
  · rw [if_pos hc]
    exact List.Nodup.sublist (List.drop_sublist _ _) h
  · rwa [if_neg hc]

theorem rememberSpeakerParam_history (ctx : Context) (p : Params) :
    (rememberSpeakerParam ctx p).conversationHistory = ctx.conversationHistory := by
  unfold rememberSpeakerParam; split <;> rfl

theorem rememberTopicParam_history (ctx : Context) (p : Params) :
    (rememberTopicParam ctx p).conversationHistory = ctx.conversationHistory := by
  unfold rememberTopicParam; split <;> rfl

theorem rememberQueryParam_history (ctx : Context) (p : Params) :
    (rememberQueryParam ctx p).conversationHistory = ctx.conversationHistory := by
  unfold rememberQueryParam; split <;> rfl

theorem rememberResultEntities_history (ctx : Context) (item : SessionItem) :
    (rememberResultEntities ctx item).conversationHistory = ctx.conversationHistory := by
  unfold rememberResultEntities
  split <;> (try split) <;> (try split) <;> rfl

theorem foldl_remember_history (items : List SessionItem) (ctx : Context) :
    (items.foldl rememberResultEntities ctx).conversationHistory = ctx.conversationHistory := by
  induction items generalizing ctx with
  | nil => rfl
  | cons a t ih => rw [List.foldl_cons, ih, rememberResultEntities_history]

theorem rememberResults_history (ctx : Context) (r : FnResult) :
    (rememberResults ctx r).conversationHistory = ctx.conversationHistory := by
  unfold rememberResults
  split
  · exact foldl_remember_history _ _
  · rfl

theorem extractEntities_history (ctx : Context) (p : Params) (r : FnResult) :
    (extractEntities ctx p r).conversationHistory = ctx.conversationHistory := by
  show (rememberResults (rememberQueryParam (rememberTopicParam (rememberSpeakerParam ctx p) p) p)
      r).conversationHistory = ctx.conversationHistory
  rw [rememberResults_history, rememberQueryParam_history, rememberTopicParam_history,
    rememberSpeakerParam_history]

theorem updateCurrentTopic_history (ctx : Context) (fn : String) (p : Params) :
    (updateCurrentTopic ctx fn p).conversationHistory = ctx.conversationHistory := by
  unfold updateCurrentTopic
  repeat' split
  all_goals rfl

theorem updateCurrentTopic_speakers (ctx : Context) (fn : String) (p : Params) :
    (updateCurrentTopic ctx fn p).mentionedSpeakers = ctx.mentionedSpeakers := by
  unfold updateCurrentTopic
  repeat' split
  all_goals rfl

theorem updateCurrentTopic_sessions (ctx : Context) (fn : String) (p : Params) :
    (updateCurrentTopic ctx fn p).mentionedSessions = ctx.mentionedSessions := by
  unfold updateCurrentTopic
  repeat' split
  all_goals rfl

theorem updateCurrentTopic_terms (ctx : Context) (fn : String) (p : Params) :
    (updateCurrentTopic ctx fn p).recentSearchTerms = ctx.recentSearchTerms := by
  unfold updateCurrentTopic
  repeat' split
  all_goals rfl

/-- The three entity sets of a context are duplicate-free. -/
def NodupSets (ctx : Context) : Prop :=
  ctx.mentionedSpeakers.Nodup ∧ ctx.mentionedSessions.Nodup ∧ ctx.recentSearchTerms.Nodup

theorem rememberSpeakerParam_nodup (ctx : Context) (p : Params) (h : NodupSets ctx) :
    NodupSets (rememberSpeakerParam ctx p) := by
  unfold rememberSpeakerParam
  split
  · exact ⟨jsSetAdd_nodup _ _ h.1, h.2.1, jsSetAdd_nodup _ _ h.2.2⟩
  · exact h

theorem rememberTopicParam_nodup (ctx : Context) (p : Params) (h : NodupSets ctx) :
    NodupSets (rememberTopicParam ctx p) := by
  unfold rememberTopicParam
  split
  · exact ⟨h.1, h.2.1, jsSetAdd_nodup _ _ h.2.2⟩
  · exact h

theorem rememberQueryParam_nodup (ctx : Context) (p : Params) (h : NodupSets ctx) :
    NodupSets (rememberQueryParam ctx p) := by
  unfold rememberQueryParam
  split
  · exact ⟨h.1, h.2.1, jsSetAdd_nodup _ _ h.2.2⟩
  · exact h

theorem rememberResultEntities_nodup (ctx : Context) (item : SessionItem) (h : NodupSets ctx) :
    NodupSets (rememberResultEntities ctx item) := by
  unfold rememberResultEntities
  repeat' split
  all_goals first
    | exact h
    | exact ⟨jsSetAdd_nodup _ _ h.1, h.2.1, h.2.2⟩
    | exact ⟨h.1, jsSetAdd_nodup _ _ h.2.1, h.2.2⟩
    | exact ⟨jsSetAdd_nodup _ _ h.1, jsSetAdd_nodup _ _ h.2.1, h.2.2⟩

theorem foldl_remember_nodup (items : List SessionItem) (ctx : Context) (h : NodupSets ctx) :
    NodupSets (items.foldl rememberResultEntities ctx) := by
  induction items generalizing ctx with
  | nil => exact h
  | cons a t ih => exact ih _ (rememberResultEntities_nodup _ _ h)

theorem rememberResults_nodup (ctx : Context) (r : FnResult) (h : NodupSets ctx) :
    NodupSets (rememberResults ctx r) := by
  unfold rememberResults
  split
  · exact foldl_remember_nodup _ _ h
  · exact h

theorem extractEntities_nodup (ctx : Context) (p : Params) (r : FnResult) (h : NodupSets ctx) :
    NodupSets (extractEntities ctx p r) := by
  have h4 := rememberResults_nodup _ r
    (rememberQueryParam_nodup _ p (rememberTopicParam_nodup _ p (rememberSpeakerParam_nodup _ p h)))
  exact ⟨limitSetSize_nodup _ _ h4.1, limitSetSize_nodup _ _ h4.2.1, limitSetSize_nodup _ _ h4.2.2⟩

theorem extractEntities_caps (ctx : Context) (p : Params) (r : FnResult) :
    (extractEntities ctx p r).mentionedSpeakers.length ≤ 20 ∧
    (extractEntities ctx p r).mentionedSessions.length ≤ 15 ∧
    (extractEntities ctx p r).recentSearchTerms.length ≤ 10 :=
  ⟨limitSetSize_length_le _ _, limitSetSize_length_le _ _, limitSetSize_length_le _ _⟩

theorem applyCall_history (ctx : Context) (now : Int) (fn : String) (p : Params) (r : FnResult)
    (uq : Option String) :
    (applyCall ctx now fn p r uq).conversationHistory =
      lastN 10 (ctx.conversationHistory ++ [mkEntry now fn p r uq]) := by
  simp only [applyCall]
  rw [updateCurrentTopic_history, extractEntities_history]
  exact trim_eq_lastN _

theorem applyCall_caps (ctx : Context) (now : Int) (fn : String) (p : Params) (r : FnResult)
    (uq : Option String) :
    (applyCall ctx now fn p r uq).mentionedSpeakers.length ≤ 20 ∧
    (applyCall ctx now fn p r uq).mentionedSessions.length ≤ 15 ∧
    (applyCall ctx now fn p r uq).recentSearchTerms.length ≤ 10 := by
  refine ⟨?_, ?_, ?_⟩
  · show (updateCurrentTopic _ fn p).mentionedSpeakers.length ≤ 20
    rw [updateCurrentTopic_speakers]
    exact (extractEntities_caps _ _ _).1
  · show (updateCurrentTopic _ fn p).mentionedSessions.length ≤ 15
    rw [updateCurrentTopic_sessions]
    exact (extractEntities_caps _ _ _).2.1
  · show (updateCurrentTopic _ fn p).recentSearchTerms.length ≤ 10
    rw [updateCurrentTopic_terms]
    exact (extractEntities_caps _ _ _).2.2

theorem applyCall_nodup (ctx : Context) (now : Int) (fn : String) (p : Params) (r : FnResult)
    (uq : Option String) (h : NodupSets ctx) : NodupSets (applyCall ctx now fn p r uq) := by
  have hmid : NodupSets
      ({ ctx with
          conversationHistory :=
            if 10 < (ctx.conversationHistory ++ [mkEntry now fn p r uq]).length then
              lastN 10 (ctx.conversationHistory ++ [mkEntry now fn p r uq])
            else ctx.conversationHistory ++ [mkEntry now fn p r uq]
          lastQuery := some { functionName := fn, parameters := p,
                              results := r.data.getD [], timestamp := now }
          lastResults := r.data.getD [] }) := h
  have h2 := extractEntities_nodup _ p r hmid
  refine ⟨?_, ?_, ?_⟩
  · show (updateCurrentTopic _ fn p).mentionedSpeakers.Nodup
    rw [updateCurrentTopic_speakers]
    exact h2.1
  · show (updateCurrentTopic _ fn p).mentionedSessions.Nodup
    rw [updateCurrentTopic_sessions]
    exact h2.2.1
  · show (updateCurrentTopic _ fn p).recentSearchTerms.Nodup
    rw [updateCurrentTopic_terms]
    exact h2.2.2

/-- The store after `updateContext` is the old store with the mutated
context written at the session key. -/
theorem updateContext_eq (m : Store) (now : Int) (sid fn : String) (p : Params) (r : FnResult)
    (uq : Option String) :
    updateContext m now sid fn p r uq =
      (aset m sid (applyCall ({ (alookup m sid).getD (createNewContext sid now) with
          lastActivity := now }) now fn p r uq),
       applyCall ({ (alookup m sid).getD (createNewContext sid now) with
          lastActivity := now }) now fn p r uq) := by
  simp only [updateContext, getContext]
  rw [aset_aset]

/-- Every context reachable through a run of interactions satisfies any
predicate preserved by the call step, the `lastActivity` refresh, and
context creation. -/
theorem runInteractions_lookup_ind (P : Context → Prop) (sid : String)
    (hstep : ∀ ctx (c : CallRec), P ctx →
       P (applyCall ctx c.now c.functionName c.parameters c.results c.userQuery))
    (hla : ∀ ctx (t : Int), P ctx → P { ctx with lastActivity := t })
    (hnew : ∀ (s : String) (t : Int), P (createNewContext s t)) :
    ∀ (cs : List CallRec) (m : Store), (∀ k v, alookup m k = some v → P v) →
      ∀ k v, alookup (runInteractions m sid cs) k = some v → P v := by
  intro cs
  induction cs with
  | nil => intro m hm k v hv; exact hm k v hv
  | cons c t ih =>
      intro m hm k v hv
      refine ih _ ?_ k v hv
      intro k2 v2 hv2
      replace hv2 : alookup ((updateContext m c.now sid c.functionName c.parameters c.results
        c.userQuery).1) k2 = some v2 := hv2
      rw [updateContext_eq] at hv2
      rcases alookup_aset_cases _ _ _ _ _ hv2 with h1 | h2
      · rw [h1]
        refine hstep _ c (hla _ _ ?_)
        cases hms : alookup m sid with
        | none => exact hnew sid c.now
        | some cold => exact hm sid cold hms
      · exact hm k2 v2 h2

/-- Running interactions on a session with a trimmed history yields the
trimmed concatenation of the produced entries. -/
theorem runInteractions_history (sid : String) :
    ∀ (cs : List CallRec) (m : Store) (ctx : Context),
      alookup m sid = some ctx → ctx.conversationHistory.length ≤ 10 →
      ∃ ctx2, alookup (runInteractions m sid cs) sid = some ctx2 ∧
        ctx2.conversationHistory = lastN 10 (ctx.conversationHistory ++ cs.map entryOf) := by
  intro cs
  induction cs with
  | nil =>
      intro m ctx hm hlen
      exact ⟨ctx, hm, by rw [List.map_nil, List.append_nil, lastN_of_le _ _ hlen]⟩
  | cons c t ih =>
      intro m ctx hm hlen
      have hstore : alookup ((updateContext m c.now sid c.functionName c.parameters c.results
          c.userQuery).1) sid =
          some (applyCall { ctx with lastActivity := c.now } c.now c.functionName c.parameters
            c.results c.userQuery) := by
        rw [updateContext_eq]
        rw [hm]
        exact alookup_aset_self _ _ _
      have hh1 : (applyCall { ctx with lastActivity := c.now } c.now c.functionName c.parameters
          c.results c.userQuery).conversationHistory =
          lastN 10 (ctx.conversationHistory ++ [entryOf c]) := applyCall_history _ _ _ _ _ _
      have hlen1 : (applyCall { ctx with lastActivity := c.now } c.now c.functionName c.parameters
          c.results c.userQuery).conversationHistory.length ≤ 10 := by
        rw [hh1, lastN_length]; omega
      obtain ⟨ctx2, h2, hh2⟩ := ih _ _ hstore hlen1
      refine ⟨ctx2, h2, ?_⟩
      rw [hh2, hh1, lastN_append_lastN, List.append_assoc]
      rfl

/-- The resolution passes never read `lastActivity`, so refreshing it does
not change their output. -/
theorem resolvePasses_lastActivity (c : Context) (x : Int) (fn : String) (p : Params) :
    resolvePasses { c with lastActivity := x } fn p = resolvePasses c fn p := rfl

/-- `List.find?` returns the first entry in list order that satisfies the
predicate. -/
theorem find_first {α : Type} (f : α → Bool) (d : α) :
    ∀ (l : List α) (i : Nat), i < l.length →
      (∀ j, j < i → f (l.getD j d) = false) → f (l.getD i d) = true →
      l.find? f = some (l.getD i d) := by
  intro l
  induction l with
  | nil => intro i hi; exact absurd hi (by simp)
  | cons a t ih =>
      intro i hi hb hf
      cases i with
      | zero =>
          rw [List.getD_cons_zero] at hf
          rw [List.getD_cons_zero, List.find?_cons_of_pos _ hf]
      | succ n =>
          have ha : f a = false := by
            have := hb 0 (Nat.succ_pos n)
            rwa [List.getD_cons_zero] at this
          rw [List.getD_cons_succ] at hf ⊢
          rw [List.find?_cons_of_neg _ (by simp [ha])]
          exact ih n (by simpa using hi)
            (fun j hj => by simpa using hb (j + 1) (by omega)) hf

/-- `extractOrdinalReference` resolves the first entry of `ordinals` (in its
stated order) whose key the lowercased text contains. -/
theorem extractOrdinal_at (t : String) (i : Nat) (hi : i < ordinals.length)
    (hb : ∀ j, j < i → strContains (lowerStr t) ((ordinals.getD j ("", 0)).1) = false)
    (hm : strContains (lowerStr t) ((ordinals.getD i ("", 0)).1) = true) :
    extractOrdinalReference t = some ((ordinals.getD i ("", 0)).2) := by
  show (ordinals.find? fun kv => strContains (lowerStr t) kv.1).map Prod.snd = _
  rw [find_first (fun kv => strContains (lowerStr t) kv.1) ("", 0) ordinals i hi hb hm]
  rfl

/-! ## Concrete fixtures for witnesses and counterexamples -/

def itemA : SessionItem := { title := some "Alpha Talk", speaker := some ⟨"Ann"⟩ }

def itemB : SessionItem := { title := some "Beta Talk", speaker := none }

def itemC : SessionItem := { title := some "Gamma Talk", speaker := some ⟨"Carl"⟩ }

def ctxABC : Context := { createNewContext "demo" 0 with lastResults := [itemA, itemB, itemC] }

def ctxJason : Context :=
  { createNewContext "demo" 0 with mentionedSpeakers := ["sarah drasner", "jason lengstorf"] }

def demoCall : CallRec :=
  { now := 1
    functionName := "get_current_sessions"
    parameters := []
    results := { success := true, data := none, count := none }
    userQuery := none }

def demoCalls : List CallRec := List.replicate 11 demoCall

/-- Modelled from the spec: the ordinal table in the order the claim lists
it (first/1st → 0, second/2nd → 1, …, last/latest/newest → last), for
comparison with the source's `ordinals` iteration order. -/
def claimedOrdinals : List (String × Int) :=
  [("first", 0), ("1st", 0), ("second", 1), ("2nd", 1), ("third", 2), ("3rd", 2),
   ("fourth", 3), ("4th", 3), ("fifth", 4), ("5th", 4),
   ("last", -1), ("latest", -1), ("newest", -1)]

/-- Modelled from the spec: ordinal extraction if the table were checked in
the claim's stated order. -/
def extractOrdinalClaimed (text : String) : Option Int :=
  let lowerText := lowerStr text
  (claimedOrdinals.find? fun kv => strContains lowerText kv.1).map Prod.snd

/-! ## Claim theorems -/

/-- C1 (counterexample): `resolveContextualQuery`, as implemented, is not
read-only on the store — it adds a tracked state for an unseen sessionId,
and it changes the touched state's `lastActivity`. -/
theorem C1_counterexample :
    (resolveContextualQuery [] 0 "session-1" "get_session_details" []).1 ≠ ([] : Store)
    ∧ alookup (resolveContextualQuery [("session-1", createNewContext "session-1" 0)] 300000
        "session-1" "get_session_details" []).1 "session-1" ≠
      some (createNewContext "session-1" 0) :=
  ⟨by decide, by decide⟩

/-- C1 (amended): the resolved parameters are a pure function of the prior
ConversationState and the raw input, and resolution leaves every other
session untouched and every field of the touched session except
`lastActivity` unchanged (a fresh empty state is created for an unseen
sessionId). -/
theorem C1_resolve_frame (m : Store) (now : Int) (sid fn : String) (p : Params) :
    ((resolveContextualQuery m now sid fn p).2 =
      resolvePasses ((alookup m sid).getD (createNewContext sid now)) fn p)
    ∧ (∀ sid2, sid2 ≠ sid →
        alookup (resolveContextualQuery m now sid fn p).1 sid2 = alookup m sid2)
    ∧ (∀ c, alookup m sid = some c →
        alookup (resolveContextualQuery m now sid fn p).1 sid =
          some { c with lastActivity := now })
    ∧ (alookup m sid = none →
        alookup (resolveContextualQuery m now sid fn p).1 sid =
          some (createNewContext sid now)) := by
  refine ⟨?_, ?_, ?_, ?_⟩
  · show resolvePasses { (alookup m sid).getD (createNewContext sid now) with
        lastActivity := now } fn p = _
    exact resolvePasses_lastActivity _ _ _ _
  · intro sid2 hne
    show alookup (aset m sid { (alookup m sid).getD (createNewContext sid now) with
        lastActivity := now }) sid2 = _
    exact alookup_aset_ne _ _ _ _ hne
  · intro c hcm
    show alookup (aset m sid { (alookup m sid).getD (createNewContext sid now) with
        lastActivity := now }) sid = some { c with lastActivity := now }
    rw [hcm]
    exact alookup_aset_self _ _ _
  · intro hcm
    show alookup (aset m sid { (alookup m sid).getD (createNewContext sid now) with
        lastActivity := now }) sid = some (createNewContext sid now)
    rw [hcm]
    exact alookup_aset_self _ _ _

/-- C2 (counterexample): on a text containing both "1st" and "last" the
code resolves to the last element (−1), not to 0 as the claim's table order
(first/1st first) would give. -/
theorem C2_counterexample :
    extractOrdinalReference "1st and last" = some (-1)
    ∧ extractOrdinalClaimed "1st and last" = some 0
    ∧ extractOrdinalReference "1st and last" ≠ extractOrdinalClaimed "1st and last" :=
  ⟨by decide, by decide, by decide⟩

/-- C2 (amended): ordinal extraction checks the fixed table by
case-insensitive substring containment in the code's iteration order —
first, second, third, fourth, fifth, last, latest, newest, 1st, 2nd, 3rd,
4th, 5th — and the first match in that order wins. -/
theorem C2_table_order (text : String) (i : Nat) (hi : i < ordinals.length)
    (hb : ∀ j, j < i → strContains (lowerStr text) ((ordinals.getD j ("", 0)).1) = false)
    (hm : strContains (lowerStr text) ((ordinals.getD i ("", 0)).1) = true) :
    extractOrdinalReference text = some ((ordinals.getD i ("", 0)).2)
    ∧ ordinals = [("first", 0), ("second", 1), ("third", 2), ("fourth", 3), ("fifth", 4),
        ("last", -1), ("latest", -1), ("newest", -1),
        ("1st", 0), ("2nd", 1), ("3rd", 2), ("4th", 3), ("5th", 4)] :=
  ⟨extractOrdinal_at text i hi hb hm, rfl⟩

/-- C2 (witness): "1st and last" contains no ordinal earlier than "last" in
the code's table order, so it resolves to the last element. -/
theorem C2_witness : extractOrdinalReference "1st and last" = some (-1) :=
  (C2_table_order "1st and last" 5 (by decide) (by decide) (by decide)).1

def ctxSessionOnly : Context :=
  { createNewContext "demo" 0 with mentionedSessions := ["keynote"] }

/-- C3: the program evaluated at the claim's inputs, with
`lastResults = [Alpha Talk, Beta Talk, Gamma Talk]`: "tell me about the
first one" is a silent no-op — `extractOrdinalReference` returns the index
0 and the source's `if (ordinalMatch)` treats 0 as falsy, skipping the
replacement the claim (and the spec's ordinal-resolution property)
requires — while "the last one" resolves to the last entry's title,
out-of-range "the fifth one" is a no-op, and empty `lastResults` leaves any
parameters unchanged. -/
theorem C3_ordinal_zero_falsy :
    resolveFollowUpQueries ctxABC "get_session_details"
        [("session_query", some "tell me about the first one")] =
      [("session_query", some "tell me about the first one")]
    ∧ resolveFollowUpQueries ctxABC "get_session_details"
        [("session_query", some "tell me about the first one")] ≠
      [("session_query", some "Alpha Talk")]
    ∧ truthyInt (extractOrdinalReference "tell me about the first one") = none
    ∧ resolveFollowUpQueries ctxABC "get_session_details"
        [("session_query", some "the last one")] =
      [("session_query", some "Gamma Talk")]
    ∧ resolveFollowUpQueries ctxABC "get_session_details"
        [("session_query", some "the fifth one")] =
      [("session_query", some "the fifth one")]
    ∧ (∀ (ctx2 : Context) (fn : String) (q : Params), ctx2.lastResults = [] →
        resolveFollowUpQueries ctx2 fn q = q) := by
  refine ⟨by decide, by decide, by decide, by decide, by decide, ?_⟩
  intro ctx2 fn q h2
  unfold resolveFollowUpQueries
  rw [h2]
  rfl

/-- C4: more than 10 recorded interactions on one session leave exactly the
10 most recent entries, in order, in the history; and a single
`updateContext` never produces a history longer than 10. -/
theorem C4_history_trim (sid : String) (calls : List CallRec) (hlen : 10 < calls.length) :
    (∃ ctx, alookup (runInteractions [] sid calls) sid = some ctx ∧
      ctx.conversationHistory.length = 10 ∧
      ctx.conversationHistory = lastN 10 (calls.map entryOf))
    ∧ ∀ (m : Store) (now : Int) (sid2 fn : String) (p : Params) (r : FnResult)
        (uq : Option String),
        ((updateContext m now sid2 fn p r uq).2).conversationHistory.length ≤ 10 := by
  constructor
  · cases calls with
    | nil => exact absurd hlen (by simp)
    | cons c t =>
        have hstore : alookup ((updateContext [] c.now sid c.functionName c.parameters c.results
            c.userQuery).1) sid = some (applyCall (createNewContext sid c.now) c.now
            c.functionName c.parameters c.results c.userQuery) := by
          rw [updateContext_eq]
          exact alookup_aset_self _ _ _
        have hh1 : (applyCall (createNewContext sid c.now) c.now c.functionName c.parameters
            c.results c.userQuery).conversationHistory =
            lastN 10 ([] ++ [entryOf c]) := applyCall_history _ _ _ _ _ _
        have hlen1 : (applyCall (createNewContext sid c.now) c.now c.functionName c.parameters
            c.results c.userQuery).conversationHistory.length ≤ 10 := by
          rw [hh1, lastN_length]
          simp
        obtain ⟨ctx2, h2, hh2⟩ := runInteractions_history sid t _ _ hstore hlen1
        rw [hh1, lastN_append_lastN] at hh2
        have hfinal : ctx2.conversationHistory = lastN 10 ((c :: t).map entryOf) := by
          rw [hh2]
          rfl
        refine ⟨ctx2, h2, ?_, hfinal⟩
        rw [hfinal, lastN_length, List.length_map]
        have : 10 < (c :: t).length := hlen
        omega
  · intro m now sid2 fn p r uq
    show (applyCall ({ (alookup m sid2).getD (createNewContext sid2 now) with
        lastActivity := now }) now fn p r uq).conversationHistory.length ≤ 10
    rw [applyCall_history, lastN_length]
    omega

/-- C4 (witness): eleven identical interactions leave a 10-entry history. -/
theorem C4_witness :
    (∃ ctx, alookup (runInteractions [] "demo" demoCalls) "demo" = some ctx ∧
      ctx.conversationHistory.length = 10 ∧
      ctx.conversationHistory = lastN 10 (demoCalls.map entryOf))
    ∧ ∀ (m : Store) (now : Int) (sid2 fn : String) (p : Params) (r : FnResult)
        (uq : Option String),
        ((updateContext m now sid2 fn p r uq).2).conversationHistory.length ≤ 10 :=
  C4_history_trim "demo" demoCalls (by decide)

/-- C5: after any sequence of recorded interactions the entity sets respect
their caps (20 speakers, 15 sessions, 10 search terms), and `limitSetSize`
keeps exactly the most-recently-inserted elements as a suffix (oldest
dropped first, insertion order preserved). -/
theorem C5_entity_caps :
    (∀ (sid : String) (calls : List CallRec) (k : String) (ctx : Context),
        alookup (runInteractions [] sid calls) k = some ctx →
        ctx.mentionedSpeakers.length ≤ 20 ∧ ctx.mentionedSessions.length ≤ 15 ∧
          ctx.recentSearchTerms.length ≤ 10)
    ∧ (∀ (s : List String) (cap : Nat),
        (limitSetSize s cap).length = min cap s.length ∧ limitSetSize s cap <:+ s) := by
  constructor
  · intro sid calls k ctx hctx
    refine runInteractions_lookup_ind
      (fun c => c.mentionedSpeakers.length ≤ 20 ∧ c.mentionedSessions.length ≤ 15 ∧
        c.recentSearchTerms.length ≤ 10) sid ?_ ?_ ?_ calls [] ?_ k ctx hctx
    · intro ctx2 c _
      exact applyCall_caps _ _ _ _ _ _
    · intro ctx2 t hc
      exact hc
    · intro s t
      exact ⟨by simp [createNewContext], by simp [createNewContext], by simp [createNewContext]⟩
    · intro k2 v2 hv2
      exact absurd hv2 (by simp [alookup])
  · intro s cap
    constructor
    · unfold limitSetSize
      by_cases hc : cap < s.length
      · rw [if_pos hc, lastN_length]
      · rw [if_neg hc]
        omega
    · unfold limitSetSize
      by_cases hc : cap < s.length
      · rw [if_pos hc]
        exact lastN_suffix _ _
      · rw [if_neg hc]

/-- C6: `cleanupExpiredContexts` keeps exactly the states whose
`lastActivity` is at or after `now` minus the 10-minute timeout; a state 11
minutes stale is evicted, a state 9 minutes stale is retained. -/
theorem C6_evict_exact (m : Store) (now : Int) (sid : String) (ctx : Context) :
    ((sid, ctx) ∈ cleanupExpiredContexts m now ↔
      (sid, ctx) ∈ m ∧ now - CONTEXT_TIMEOUT ≤ ctx.lastActivity)
    ∧ cleanupExpiredContexts [(sid, { ctx with lastActivity := now - 11 * 60 * 1000 })] now = []
    ∧ cleanupExpiredContexts [(sid, { ctx with lastActivity := now - 9 * 60 * 1000 })] now =
        [(sid, { ctx with lastActivity := now - 9 * 60 * 1000 })] := by
  refine ⟨?_, ?_, ?_⟩
  · simp only [cleanupExpiredContexts, List.mem_filter, decide_eq_true_eq]
    constructor
    · rintro ⟨h1, h2⟩
      exact ⟨h1, by omega⟩
    · rintro ⟨h1, h2⟩
      exact ⟨h1, by omega⟩
  · have hb : (decide (now - ({ ctx with lastActivity := now - 11 * 60 * 1000 } :
        Context).lastActivity ≤ CONTEXT_TIMEOUT)) = false :=
      decide_eq_false (by show ¬ (now - (now - 11 * 60 * 1000) ≤ (10 * 60 * 1000 : Int)); omega)
    simp only [cleanupExpiredContexts, List.filter, hb]
  · have hb : (decide (now - ({ ctx with lastActivity := now - 9 * 60 * 1000 } :
        Context).lastActivity ≤ CONTEXT_TIMEOUT)) = true :=
      decide_eq_true (by show now - (now - 9 * 60 * 1000) ≤ (10 * 60 * 1000 : Int); omega)
    simp only [cleanupExpiredContexts, List.filter, hb]

/-- C7: for an unseen sessionId, `getContext` creates a state with empty
history, null topic, empty entity sets and empty `lastResults`, stores it,
and returns it — it is a total function, never an error. -/
theorem C7_get_or_create (m : Store) (now : Int) (sid : String)
    (h : alookup m sid = none) :
    ((getContext m now sid).2).conversationHistory = []
    ∧ ((getContext m now sid).2).currentTopic = none
    ∧ ((getContext m now sid).2).mentionedSpeakers = []
    ∧ ((getContext m now sid).2).mentionedSessions = []
    ∧ ((getContext m now sid).2).recentSearchTerms = []
    ∧ ((getContext m now sid).2).lastResults = []
    ∧ alookup ((getContext m now sid).1) sid = some ((getContext m now sid).2) := by
  have hc : (getContext m now sid).2 = createNewContext sid now := by
    show { (alookup m sid).getD (createNewContext sid now) with lastActivity := now } = _
    rw [h]
    rfl
  refine ⟨?_, ?_, ?_, ?_, ?_, ?_, alookup_aset_self _ _ _⟩ <;> rw [hc] <;> rfl

/-- C7 (witness): a fresh store and an unknown sessionId. -/
theorem C7_witness :
    ((getContext [] 0 "demo").2).conversationHistory = []
    ∧ ((getContext [] 0 "demo").2).currentTopic = none
    ∧ ((getContext [] 0 "demo").2).mentionedSpeakers = []
    ∧ ((getContext [] 0 "demo").2).mentionedSessions = []
    ∧ ((getContext [] 0 "demo").2).recentSearchTerms = []
    ∧ ((getContext [] 0 "demo").2).lastResults = []
    ∧ alookup ((getContext [] 0 "demo").1) "demo" = some ((getContext [] 0 "demo").2) :=
  C7_get_or_create [] 0 "demo" rfl

/-- C8 (counterexample): with `mentionedSpeakers` empty the text is not
always left unmodified — control falls through to the session branch, so
"the speaker at that session" is rewritten using `mentionedSessions`. -/
theorem C8_counterexample :
    ctxSessionOnly.mentionedSpeakers = []
    ∧ replaceContextualTerms ctxSessionOnly "the speaker at that session" =
        "the speaker at keynote"
    ∧ replaceContextualTerms ctxSessionOnly "the speaker at that session" ≠
        "the speaker at that session" :=
  ⟨rfl, by decide, by decide⟩

/-- C8 (amended): Pass B replaces "that speaker" / "the speaker"
(case-insensitive) with the most-recently-inserted member of
`mentionedSpeakers` — which is the last element in insertion order — and
when the set is empty the speaker substitution is skipped (a text such as
"that speaker", containing no session or topic phrase, is left
unmodified); the spec's `{speaker_name: "that speaker"}` example resolves
to "jason lengstorf". -/
theorem C8_speaker_substitution (ctx : Context) (t sp : String)
    (hc : strContains (lowerStr t) "that speaker" = true ∨
      strContains (lowerStr t) "the speaker" = true) :
    (∀ s : List String, getRecentEntity s = s.getLast?)
    ∧ (ctx.mentionedSpeakers.getLast? = some sp →
        replaceContextualTerms ctx t = replaceAllCI "that speaker" "the speaker" sp t)
    ∧ (∀ ctx2 : Context, ctx2.mentionedSpeakers = [] →
        replaceContextualTerms ctx2 "that speaker" = "that speaker")
    ∧ resolveContextualReferences ctxJason [("speaker_name", some "that speaker")] =
        [("speaker_name", some "jason lengstorf")] := by
  have hrecent : ∀ s : List String, getRecentEntity s = s.getLast? := by
    intro s
    cases s with
    | nil => rfl
    | cons a l =>
        unfold getRecentEntity
        rw [if_neg (by simp)]
  refine ⟨hrecent, ?_, ?_, by decide⟩
  · intro hlast
    unfold replaceContextualTerms
    have hcond : ((strContains (lowerStr t) "that speaker" ||
        strContains (lowerStr t) "the speaker")
        && (getRecentEntity ctx.mentionedSpeakers).isSome) = true := by
      rw [hrecent, hlast]
      rcases hc with hh | hh <;> simp [hh]
    rw [if_pos hcond, hrecent, hlast]
    rfl
  · intro ctx2 h2
    obtain ⟨s1, s2, s3, s4, s5, s6, s7, msp, s9, s10⟩ := ctx2
    simp only at h2
    subst h2
    rfl

/-- C8 (witness): the spec's contextual-substitution example, via the
general substitution clause. -/
theorem C8_witness :
    replaceContextualTerms ctxJason "that speaker" = "jason lengstorf" := by
  have h := (C8_speaker_substitution ctxJason "that speaker" "jason lengstorf"
    (Or.inl (by decide))).2.1 (by decide)
  rw [h]
  decide

/-- C9: resolving twice with the same operation name and raw parameters —
the second time against the store the first call left behind — returns the
same resolved parameters: resolution's output does not depend on the state
it mutates (`lastActivity` and lazy creation). -/
theorem C9_resolve_deterministic (m : Store) (now now2 : Int) (sid fn : String) (p : Params) :
    (resolveContextualQuery ((resolveContextualQuery m now sid fn p).1) now2 sid fn p).2 =
      (resolveContextualQuery m now sid fn p).2 := by
  have h2 : alookup ((resolveContextualQuery m now sid fn p).1) sid =
      some { (alookup m sid).getD (createNewContext sid now) with lastActivity := now } :=
    alookup_aset_self _ _ _
  show resolvePasses { (alookup ((resolveContextualQuery m now sid fn p).1) sid).getD
      (createNewContext sid now2) with lastActivity := now2 } fn p =
    resolvePasses { (alookup m sid).getD (createNewContext sid now) with
      lastActivity := now } fn p
  rw [h2, resolvePasses_lastActivity]
  rfl

/-- C10: inserting an existing member into an entity set is a no-op (the
sets are duplicate-free after any run of interactions), so re-mentioning an
entity does not move it to the most-recent position: the recent entity
stays the other member. -/
theorem C10_set_dedup :
    (∀ (s : List String) (x : String), x ∈ s → jsSetAdd s x = s)
    ∧ (∀ (sid : String) (calls : List CallRec) (k : String) (ctx : Context),
        alookup (runInteractions [] sid calls) k = some ctx →
        ctx.mentionedSpeakers.Nodup ∧ ctx.mentionedSessions.Nodup ∧
          ctx.recentSearchTerms.Nodup)
    ∧ jsSetAdd ["sarah drasner", "jason lengstorf"] "sarah drasner" =
        ["sarah drasner", "jason lengstorf"]
    ∧ getRecentEntity (jsSetAdd ["sarah drasner", "jason lengstorf"] "sarah drasner") =
        some "jason lengstorf" := by
  refine ⟨?_, ?_, by decide, by decide⟩
  · intro s x hx
    unfold jsSetAdd
    rw [if_pos hx]
  · intro sid calls k ctx hctx
    exact runInteractions_lookup_ind NodupSets sid
      (fun c cc hh => applyCall_nodup _ _ _ _ _ _ hh)
      (fun c tt hh => hh)
      (fun s tt => ⟨List.nodup_nil, List.nodup_nil, List.nodup_nil⟩)
      calls [] (fun k2 v2 hv2 => absurd hv2 (by simp [alookup])) k ctx hctx

end ConfVoice
